import Mathlib

/-!
Verification of the PropertyRadar contact-finder pipeline
(`final_working_script.py`, `final_property_radar_phone_finder.py`).

The Python source is shallowly embedded: strings are manipulated as
`List Char` (mirroring Python's character-level semantics restricted to
ASCII data, which is all the source ever handles), JSON payloads are an
inductive tree, and every HTTP boundary is an oracle from requests to
responses; each boundary-calling function additionally returns the list
of requests it issued, in order.
-/

namespace PRadar

/-! ## Python string primitives -/

/-- Whitespace as recognised by Python's `str.strip` / regex `\s`
(ASCII subset: space, tab, newline, carriage return, vertical tab, form feed). -/
def isPySpace (c : Char) : Bool :=
  c = ' ' || c = '\t' || c = '\n' || c = '\r' || c = '\x0b' || c = '\x0c'

/-- Python `str.lower` (ASCII). -/
def pyLower (s : String) : String := String.mk (s.toList.map Char.toLower)

/-- Python `str.upper` (ASCII). -/
def pyUpper (s : String) : String := String.mk (s.toList.map Char.toUpper)

/-- Drop leading and trailing whitespace from a character list. -/
def stripChars (l : List Char) : List Char :=
  ((l.dropWhile isPySpace).reverse.dropWhile isPySpace).reverse

/-- Python `str.strip()`: drop leading and trailing whitespace. -/
def pyStrip (s : String) : String := String.mk (stripChars s.toList)

/-- Is `needle` a contiguous sublist of `hay`? (Python's `needle in hay` on strings.) -/
def isSubList (needle : List Char) : List Char → Bool
  | [] => needle.isEmpty
  | c :: rest => needle.isPrefixOf (c :: rest) || isSubList needle rest

/-- Python `needle in hay` for strings. -/
def pyContains (hay needle : String) : Bool := isSubList needle.toList hay.toList

/-- Python `any(char.isdigit() for char in s)` (ASCII digits). -/
def hasDigitChar (s : String) : Bool := s.toList.any Char.isDigit

/-- Split a character list at every occurrence of `sep`
(Python `str.split(sep)` semantics: keeps empty segments, `"".split(",") == [""]`). -/
def splitChar (sep : Char) : List Char → List (List Char)
  | [] => [[]]
  | c :: rest =>
    if c = sep then [] :: splitChar sep rest
    else
      match splitChar sep rest with
      | [] => [[c]]
      | g :: gs => (c :: g) :: gs

/-- Python `s.split(",")`. -/
def pySplitComma (s : String) : List String := (splitChar ',' s.toList).map String.mk

/-- ASCII letter, the regex class `[A-Za-z]`. -/
def isAsciiAlpha (c : Char) : Bool :=
  ('A' ≤ c && c ≤ 'Z') || ('a' ≤ c && c ≤ 'z')

/-! ## Contact normalization (`final_working_script.py` lines 518-532 and 770-784)

The per-entry phone rule below is the loop body that appears verbatim in
both `find_phone_numbers_in_response_comprehensive` and
`extract_phones_from_data`: strip non-digits, then format by digit count. -/

/-- Python `digits.startswith('1')`. -/
def startsWithOne : List Char → Bool
  | [] => false
  | c :: _ => c = '1'

/-- One raw phone string through the source's cleanup loop:
`digits = ''.join(c for c in phone if c.isdigit())`, then format
10-digit numbers as `(DDD) DDD-DDDD` (slices `[:3]`, `[3:6]`, `[6:]`),
11-digit numbers starting with `1` the same way from slices `[1:4]`,
`[4:7]`, `[7:]`, keep the original when ≥ 10 digits, drop it otherwise. -/
def cleanPhone (phone : String) : Option String :=
  let digits := phone.toList.filter Char.isDigit
  if digits.length = 10 then
    some (String.mk ('(' :: digits.take 3 ++ [')', ' '] ++
      (digits.drop 3).take 3 ++ '-' :: digits.drop 6))
  else if digits.length = 11 ∧ startsWithOne digits = true then
    some (String.mk ('(' :: (digits.drop 1).take 3 ++ [')', ' '] ++
      (digits.drop 4).take 3 ++ '-' :: digits.drop 7))
  else if 10 ≤ digits.length then some phone
  else none

/-- The `list(set(cleaned_phones))` stage of `extract_phones_from_data`,
viewed as the set it denotes (Python's set iteration order is unspecified,
so the result is modelled as a `Finset`).  This is the spec's
`normalizePhones`. -/
def normalizePhones (l : List String) : Finset String :=
  (l.filterMap cleanPhone).toFinset

/-- Email acceptance test of `find_emails_in_response_comprehensive`
(line 722): `'@' in email and '.' in email and len(email) > 5`. -/
def emailOkFull (e : String) : Bool :=
  pyContains e "@" && pyContains e "." && decide (5 < e.length)

/-- Email acceptance test of `extract_emails_from_data` (line 748):
`'@' in email and '.' in email` — note: no length check on this path. -/
def emailOkAt (e : String) : Bool :=
  pyContains e "@" && pyContains e "."

/-- The cleanup stage of `find_emails_in_response_comprehensive`
(lines 719-725): iterate the set of raw matches (modelled by `dedup`),
strip each, keep those passing `emailOkFull`.  This is the spec's
`normalizeEmails` on the cached path, as the set it denotes. -/
def normalizeEmails (l : List String) : Finset String :=
  ((l.dedup.map pyStrip).filter emailOkFull).toFinset

/-- The cleanup stage of `extract_emails_from_data` (lines 744-751):
strip each entry, keep those passing `emailOkAt`, and deduplicate via
`list(set(...))`. -/
def normalizeEmailsPurchase (l : List String) : Finset String :=
  ((l.map pyStrip).filter emailOkAt).toFinset

/-! ## Address parser (`parse_address`, `final_working_script.py` lines 94-144)

The two regexes are compiled by hand.  `re.match(r'([A-Za-z]{2})\s+(\d{5})', s)`
anchors at the start; `\s+` is greedy, and since no whitespace character is a
letter or digit, the greedy run is the only viable one, so the matcher below is
deterministic and faithful. -/

/-- `re.match(r'([A-Za-z]{2})\s+(\d{5})', s)`: two letters, ≥1 whitespace,
five digits; returns (group 1, group 2). -/
def matchStateZip (s : String) : Option (String × String) :=
  match s.toList with
  | a :: b :: rest =>
    if isAsciiAlpha a && isAsciiAlpha b then
      if (rest.takeWhile isPySpace).isEmpty then none
      else
        let ds := (rest.dropWhile isPySpace).take 5
        if ds.length = 5 ∧ ds.all Char.isDigit then
          some (String.mk [a, b], String.mk ds)
        else none
    else none
  | _ => none

/-- The tail `\s+([A-Za-z]{2})\s+(\d{5})` of the secondary pattern. -/
def tailStateZip (cs : List Char) : Option (String × String) :=
  if (cs.takeWhile isPySpace).isEmpty then none
  else
    match cs.dropWhile isPySpace with
    | a :: b :: rest =>
      if isAsciiAlpha a && isAsciiAlpha b then
        if (rest.takeWhile isPySpace).isEmpty then none
        else
          let ds := (rest.dropWhile isPySpace).take 5
          if ds.length = 5 ∧ ds.all Char.isDigit then
            some (String.mk [a, b], String.mk ds)
          else none
      else none
    | _ => none

/-- The tail `,?\s+([A-Za-z]{2})\s+(\d{5})`.  The optional comma is greedy,
but when the comma is not consumed `\s+` would have to match `,` and fail,
so consuming a present comma is the only viable choice. -/
def tailCommaStateZip (cs : List Char) : Option (String × String) :=
  match cs with
  | ',' :: rest => tailStateZip rest
  | _ => tailStateZip cs

/-- Lazy scan for `re.match(r'(.+?),?\s+([A-Za-z]{2})\s+(\d{5})', s)`:
group 1 (`.+?`) takes the shortest non-empty newline-free prefix after which
the rest of the pattern matches. -/
def cityStateZipFrom (acc : List Char) : List Char → Option (String × String × String)
  | [] => none
  | c :: rest =>
    if c = '\n' then none
    else
      match tailCommaStateZip rest with
      | some (st, zp) => some (String.mk (acc ++ [c]), st, zp)
      | none => cityStateZipFrom (acc ++ [c]) rest

/-- `re.match(r'(.+?),?\s+([A-Za-z]{2})\s+(\d{5})', s)` returning
(group 1, group 2, group 3). -/
def matchCityStateZip (s : String) : Option (String × String × String) :=
  cityStateZipFrom [] s.toList

structure AddressComponents where
  street : String
  city : String
  state : String
  zip : String
  deriving DecidableEq

/-- `parse_address` (lines 94-144).  Note that when the ≥3-segment branch's
regex fails, control falls through to the `len(parts) >= 2` branch — there is
no `else` between the two `if` statements in the source. -/
def parse_address (full_address : String) : Option AddressComponents :=
  let parts := pySplitComma full_address
  let primary : Option AddressComponents :=
    match parts with
    | p0 :: p1 :: p2 :: _ =>
      match matchStateZip (pyStrip p2) with
      | some (st, zp) => some ⟨pyStrip p0, pyStrip p1, pyUpper st, zp⟩
      | none => none
    | _ => none
  match primary with
  | some r => some r
  | none =>
    match parts with
    | p0 :: p1 :: _ =>
      match matchCityStateZip (pyStrip p1) with
      | some (city, st, zp) => some ⟨pyStrip p0, pyStrip city, pyUpper st, zp⟩
      | none => none
    | _ => none

/-- Reference algorithm exactly as claim C2 words it: the secondary combined
pattern is applied only to inputs with exactly 2 comma-separated segments,
and segments are used as split (untrimmed). -/
def parseAddressClaimRef (raw : String) : Option AddressComponents :=
  match pySplitComma raw with
  | s0 :: s1 :: s2 :: _ =>
    match matchStateZip s2 with
    | some (st, zp) => some ⟨s0, s1, pyUpper st, zp⟩
    | none => none
  | [s0, s1] =>
    match matchCityStateZip s1 with
    | some (city, st, zp) => some ⟨s0, pyStrip city, pyUpper st, zp⟩
    | none => none
  | _ => none

/-- The amended reference algorithm: segments are trimmed before use, and the
secondary combined city-state-zip pattern is tried on segment 1 of every input
with ≥ 2 segments whenever the ≥3-segment primary match did not produce a
result (not only on inputs with exactly 2 segments). -/
def parseAddressAmendedRef (raw : String) : Option AddressComponents :=
  let segs := pySplitComma raw
  let primary : Option AddressComponents :=
    if 3 ≤ segs.length then
      match matchStateZip (pyStrip (segs.getD 2 "")) with
      | some (st, zp) =>
        some ⟨pyStrip (segs.getD 0 ""), pyStrip (segs.getD 1 ""), pyUpper st, zp⟩
      | none => none
    else none
  match primary with
  | some r => some r
  | none =>
    if 2 ≤ segs.length then
      match matchCityStateZip (pyStrip (segs.getD 1 "")) with
      | some (city, st, zp) =>
        some ⟨pyStrip (segs.getD 0 ""), pyStrip city, pyUpper st, zp⟩
      | none => none
    else none

/-! ## JSON values

API responses are arbitrarily shaped JSON; dictionaries keep insertion
order, as Python's do. -/

inductive JVal where
  | str (s : String)
  | num (n : Int)
  | boolean (b : Bool)
  | null
  | arr (xs : List JVal)
  | obj (fs : List (String × JVal))

/-- Python truthiness of a JSON value. -/
def truthy : JVal → Bool
  | .str s => s ≠ ""
  | .num n => n ≠ 0
  | .boolean b => b
  | .null => false
  | .arr xs => ¬ xs.isEmpty
  | .obj fs => ¬ fs.isEmpty

def jLookup (k : String) : List (String × JVal) → Option JVal
  | [] => none
  | (k2, v) :: rest => if k2 = k then some v else jLookup k rest

/-- Python `d.get(k)` (`None` when absent or when the value is not a dict). -/
def jGet (v : JVal) (k : String) : Option JVal :=
  match v with
  | .obj fs => jLookup k fs
  | _ => none

/-- Python `d.get(k, default)`. -/
def jGetD (v : JVal) (k : String) (d : JVal) : JVal := (jGet v k).getD d

/-- The single-quote character, written via its code point to keep string
literals free of quoting. -/
def sq : Char := Char.ofNat 39

/-- Python `repr` of a JSON value (assuming data strings contain no quotes or
escapes, which holds for all payloads this pipeline handles). -/
def jRepr : JVal → String
  | .str s => String.mk (sq :: s.toList ++ [sq])
  | .num n => toString n
  | .boolean b => if b then "True" else "False"
  | .null => "None"
  | .arr xs => "[" ++ goArr xs ++ "]"
  | .obj fs => "\x7b" ++ goObj fs ++ "\x7d"
where
  goArr : List JVal → String
    | [] => ""
    | [v] => jRepr v
    | v :: rest => jRepr v ++ ", " ++ goArr rest
  goObj : List (String × JVal) → String
    | [] => ""
    | [(k, v)] => String.mk (sq :: k.toList ++ [sq]) ++ ": " ++ jRepr v
    | (k, v) :: rest =>
      String.mk (sq :: k.toList ++ [sq]) ++ ": " ++ jRepr v ++ ", " ++ goObj rest

/-- Python `str(value)`. -/
def pyStr : JVal → String
  | .str s => s
  | v => jRepr v

/-! ## Fuzzy field extractors

`find_phone_numbers_in_response_comprehensive` (lines 489-532) and
`find_emails_in_response_comprehensive` (lines 692-725): a depth-first walk
collecting candidates under indicator-matching keys, followed by the cleanup
stage.  The regex `(\d{3}[-.]?\d{3}[-.]?\d{4})` used by `re.search` is
compiled by hand: each optional separator is taken exactly when present
(skipping a present separator would require a digit to match `-` or `.`,
which fails), so the matcher is deterministic. -/

def phone_indicators : List String :=
  ["phone", "tel", "mobile", "landline", "number", "linktext"]

def email_indicators : List String := ["email", "mail", "linktext"]

/-- `any(indicator in key.lower() for indicator in indicators)`. -/
def keyHasIndicator (inds : List String) (k : String) : Bool :=
  inds.any (fun ind => pyContains (pyLower k) ind)

def take3Digits (cs : List Char) : Option (List Char × List Char) :=
  match cs with
  | a :: b :: c :: rest =>
    if a.isDigit && b.isDigit && c.isDigit then some ([a, b, c], rest) else none
  | _ => none

def take4Digits (cs : List Char) : Option (List Char × List Char) :=
  match cs with
  | a :: b :: c :: d :: rest =>
    if a.isDigit && b.isDigit && c.isDigit && d.isDigit then
      some ([a, b, c, d], rest)
    else none
  | _ => none

/-- `[-.]?`: consume a `-` or `.` when present. -/
def takeOptSep (cs : List Char) : List Char × List Char :=
  match cs with
  | c :: rest => if c = '-' || c = '.' then ([c], rest) else ([], c :: rest)
  | [] => ([], [])

/-- Try `\d{3}[-.]?\d{3}[-.]?\d{4}` anchored at the start of `cs`;
on success return the matched substring. -/
def matchPhoneAt (cs : List Char) : Option (List Char) :=
  match take3Digits cs with
  | none => none
  | some (g1, r1) =>
    let (s1, r2) := takeOptSep r1
    match take3Digits r2 with
    | none => none
    | some (g2, r3) =>
      let (s2, r4) := takeOptSep r3
      match take4Digits r4 with
      | none => none
      | some (g3, _) => some (g1 ++ s1 ++ g2 ++ s2 ++ g3)

/-- `re.search(r'(\d{3}[-.]?\d{3}[-.]?\d{4})', s)`: leftmost match. -/
def phoneRegexSearch : List Char → Option String
  | [] => none
  | c :: rest =>
    match matchPhoneAt (c :: rest) with
    | some m => some (String.mk m)
    | none => phoneRegexSearch rest

/-- The `search_recursive` walk of
`find_phone_numbers_in_response_comprehensive`: under an indicator-matching
key, a digit-bearing string value contributes its regex match (if any) and a
nested value is recursed into; under a non-matching key nested values are
recursed into and scalars are ignored.  The `elif` in the source means the two
recursion triggers are mutually exclusive. -/
def find_phones_raw : JVal → List String
  | .str _ => []
  | .num _ => []
  | .boolean _ => []
  | .null => []
  | .arr xs => goArr xs
  | .obj fs => goObj fs
where
  goArr : List JVal → List String
    | [] => []
    | v :: rest => find_phones_raw v ++ goArr rest
  goObj : List (String × JVal) → List String
    | [] => []
    | (k, v) :: rest =>
      (if keyHasIndicator phone_indicators k then
        match v with
        | .str s =>
          if hasDigitChar s then
            match phoneRegexSearch s.toList with
            | some m => [m]
            | none => []
          else []
        | .arr xs => goArr xs
        | .obj fs => goObj fs
        | _ => []
      else
        match v with
        | .arr xs => goArr xs
        | .obj fs => goObj fs
        | _ => []) ++ goObj rest

/-- `find_phone_numbers_in_response_comprehensive`: raw walk, `set`-dedup
(modelled by `List.dedup`; Python's set iteration order is unspecified), then
the per-entry cleanup. -/
def find_phone_numbers_in_response_comprehensive (data : JVal) : List String :=
  (find_phones_raw data).dedup.filterMap cleanPhone

/-- The `search_recursive` walk of `find_emails_in_response_comprehensive`:
under an indicator-matching key a string containing `@` and `.` is recorded
whole; nested values are recursed into exactly as in the phone walk. -/
def find_emails_raw : JVal → List String
  | .str _ => []
  | .num _ => []
  | .boolean _ => []
  | .null => []
  | .arr xs => goArr xs
  | .obj fs => goObj fs
where
  goArr : List JVal → List String
    | [] => []
    | v :: rest => find_emails_raw v ++ goArr rest
  goObj : List (String × JVal) → List String
    | [] => []
    | (k, v) :: rest =>
      (if keyHasIndicator email_indicators k then
        match v with
        | .str s => if pyContains s "@" && pyContains s "." then [s] else []
        | .arr xs => goArr xs
        | .obj fs => goObj fs
        | _ => []
      else
        match v with
        | .arr xs => goArr xs
        | .obj fs => goObj fs
        | _ => []) ++ goObj rest

/-- `find_emails_in_response_comprehensive`: raw walk, `set`-dedup, strip,
accept iff `@`, `.` and length > 5. -/
def find_emails_in_response_comprehensive (data : JVal) : List String :=
  ((find_emails_raw data).dedup.map pyStrip).filter emailOkFull

/-- The `find_phones_recursive` walk of `extract_phones_from_data`
(lines 757-766): under a key containing `phone` any truthy value is recorded
as `str(value)`; otherwise nested values are recursed into. -/
def extract_phones_raw : JVal → List String
  | .str _ => []
  | .num _ => []
  | .boolean _ => []
  | .null => []
  | .arr xs => goArr xs
  | .obj fs => goObj fs
where
  goArr : List JVal → List String
    | [] => []
    | v :: rest => extract_phones_raw v ++ goArr rest
  goObj : List (String × JVal) → List String
    | [] => []
    | (k, v) :: rest =>
      (if pyContains (pyLower k) "phone" && truthy v then [pyStr v]
       else
         match v with
         | .arr xs => goArr xs
         | .obj fs => goObj fs
         | _ => []) ++ goObj rest

/-- `extract_phones_from_data` (lines 753-784), as the set denoted by its
`list(set(cleaned_phones))` result, kept in first-occurrence order. -/
def extract_phones_from_data (data : JVal) : List String :=
  ((extract_phones_raw data).filterMap cleanPhone).dedup

/-- The `find_emails_recursive` walk of `extract_emails_from_data`
(lines 731-740). -/
def extract_emails_raw : JVal → List String
  | .str _ => []
  | .num _ => []
  | .boolean _ => []
  | .null => []
  | .arr xs => goArr xs
  | .obj fs => goObj fs
where
  goArr : List JVal → List String
    | [] => []
    | v :: rest => extract_emails_raw v ++ goArr rest
  goObj : List (String × JVal) → List String
    | [] => []
    | (k, v) :: rest =>
      (if pyContains (pyLower k) "email" && truthy v then [pyStr v]
       else
         match v with
         | .arr xs => goArr xs
         | .obj fs => goObj fs
         | _ => []) ++ goObj rest

/-- `extract_emails_from_data` (lines 727-751): strip each collected string
(the source's `str(email)` re-application is the identity, the entries being
strings already), accept iff `@` and `.` (no length check on this path),
`list(set(...))` kept in first-occurrence order. -/
def extract_emails_from_data (data : JVal) : List String :=
  (((extract_emails_raw data).map pyStrip).filter emailOkAt).dedup

/-! ## Board items (`extract_address`, lines 72-92; identical method at
`final_property_radar_phone_finder.py` lines 85-105) -/

structure ColumnValue where
  id : String
  text : Option String

structure MondayItem where
  name : String
  column_values : List ColumnValue

def address_indicators : List String :=
  ["st", "rd", "ave", "blvd", "ln", "dr", "way", "ct", "pl"]

def hasAddressIndicator (s : String) : Bool :=
  address_indicators.any (fun ind => pyContains (pyLower s) ind)

/-- The column scan: first column whose text is truthy and contains a
street-type keyword. -/
def firstIndicatorColumn : List ColumnValue → Option String
  | [] => none
  | c :: rest =>
    match c.text with
    | some t =>
      if t ≠ "" then
        if hasAddressIndicator t then some t else firstIndicatorColumn rest
      else firstIndicatorColumn rest
    | none => firstIndicatorColumn rest

/-- `extract_address`. -/
def extract_address (item : MondayItem) : Option String :=
  if item.name = "New address" then none
  else if hasAddressIndicator item.name then some item.name
  else
    match firstIndicatorColumn item.column_values with
    | some t => some t
    | none => if item.name = "" then none else some item.name

/-! ## The HTTP boundary

Every boundary call is a `Request`; the environment is an `Oracle` mapping
each request to a response or a raised exception (the source wraps every call
in `try/except`).  Request bodies are not modelled: no claim depends on them,
and the URL, method and `Purchase` query parameter identify every request the
pipeline makes. -/

inductive HttpMethod where
  | get
  | post
  deriving DecidableEq

structure Request where
  url : String
  method : HttpMethod
  purchase : Nat
  deriving DecidableEq

structure HttpResponse where
  status : Nat
  body : JVal

inductive BoundaryResult where
  | ok (resp : HttpResponse)
  | exn

def Oracle := Request → BoundaryResult

def radarBase : String := "https://api.propertyradar.com/v1"

def propertiesUrl : String := radarBase ++ "/properties"

def personsUrl (radarId : String) : String :=
  radarBase ++ "/properties/" ++ radarId ++ "/persons"

def phoneUrl (pk : String) : String := radarBase ++ "/persons/" ++ pk ++ "/Phone"

def emailUrl (pk : String) : String := radarBase ++ "/persons/" ++ pk ++ "/Email"

def personDetailsUrl (pk : String) : String := radarBase ++ "/persons/" ++ pk

def contactUrl (pk : String) : String := radarBase ++ "/persons/" ++ pk ++ "/contact"

def contactsUrl (pk : String) : String := radarBase ++ "/persons/" ++ pk ++ "/contacts"

/-- `data.get('totalCost', 0)` (costs are passed through unchanged; numeric
payload values are modelled as integers). -/
def jCost (body : JVal) : Int :=
  match jGet body "totalCost" with
  | some (.num n) => n
  | _ => 0

/-! ## Contact-lookup sub-protocol (lines 331-690)

Each function returns its observable result paired with the ordered list of
boundary requests it issued. -/

/-- `get_cached_phone_data` (lines 406-450): POST the Phone endpoint with
`Purchase=0`; on HTTP 200 run the comprehensive extractor and keep a
non-empty result together with the reported cost. -/
def get_cached_phone_data (oracle : Oracle) (person_key : JVal) :
    (List String × Int) × List Request :=
  let req : Request := ⟨phoneUrl (pyStr person_key), .post, 0⟩
  ((match oracle req with
    | .ok resp =>
      if resp.status = 200 then
        let phones := find_phone_numbers_in_response_comprehensive resp.body
        if phones ≠ [] then (phones, jCost resp.body) else ([], 0)
      else ([], 0)
    | .exn => ([], 0)), [req])

/-- `get_cached_email_data` (lines 609-653). -/
def get_cached_email_data (oracle : Oracle) (person_key : JVal) :
    (List String × Int) × List Request :=
  let req : Request := ⟨emailUrl (pyStr person_key), .post, 0⟩
  ((match oracle req with
    | .ok resp =>
      if resp.status = 200 then
        let emails := find_emails_in_response_comprehensive resp.body
        if emails ≠ [] then (emails, jCost resp.body) else ([], 0)
      else ([], 0)
    | .exn => ([], 0)), [req])

/-- The six alternative-endpoint requests, in source order: for each of the
person-details, `/contact` and `/contacts` endpoints, `Purchase=0` then
`Purchase=1`. -/
def altEndpointRequests (pk : String) : List Request :=
  [⟨personDetailsUrl pk, .get, 0⟩, ⟨personDetailsUrl pk, .get, 1⟩,
   ⟨contactUrl pk, .get, 0⟩, ⟨contactUrl pk, .get, 1⟩,
   ⟨contactsUrl pk, .get, 0⟩, ⟨contactsUrl pk, .get, 1⟩]

/-- The shared loop of the two `*_alternative_endpoints` functions: issue
each request in turn; the first HTTP-200 response whose extraction is
non-empty is returned with cost 0; failures and exceptions move on. -/
def tryAltRequests (oracle : Oracle) (extractor : JVal → List String) :
    List Request → (List String × Int) × List Request
  | [] => (([], 0), [])
  | r :: rest =>
    match oracle r with
    | .ok resp =>
      if resp.status = 200 then
        let found := extractor resp.body
        if found ≠ [] then ((found, 0), [r])
        else
          let next := tryAltRequests oracle extractor rest
          (next.1, r :: next.2)
      else
        let next := tryAltRequests oracle extractor rest
        (next.1, r :: next.2)
    | .exn =>
      let next := tryAltRequests oracle extractor rest
      (next.1, r :: next.2)

/-- `get_phone_data_alternative_endpoints` (lines 452-487). -/
def get_phone_data_alternative_endpoints (oracle : Oracle) (person_key : JVal) :
    (List String × Int) × List Request :=
  tryAltRequests oracle find_phone_numbers_in_response_comprehensive
    (altEndpointRequests (pyStr person_key))

/-- `get_email_data_alternative_endpoints` (lines 655-690). -/
def get_email_data_alternative_endpoints (oracle : Oracle) (person_key : JVal) :
    (List String × Int) × List Request :=
  tryAltRequests oracle find_emails_in_response_comprehensive
    (altEndpointRequests (pyStr person_key))

/-- `get_phone_numbers_for_owner` (lines 331-404): cached step, then
alternative endpoints, then — only if both were empty — the paid
`Purchase=1` POST.  On a non-200 purchase response (including the
"already purchased" 400) the result is empty with zero cost. -/
def get_phone_numbers_for_owner (oracle : Oracle) (person_key : JVal) :
    (List String × Int) × List Request :=
  if truthy person_key = false then (([], 0), [])
  else
    let cached := get_cached_phone_data oracle person_key
    if cached.1.1 ≠ [] then cached
    else
      let alt := get_phone_data_alternative_endpoints oracle person_key
      if alt.1.1 ≠ [] then (alt.1, cached.2 ++ alt.2)
      else
        let preq : Request := ⟨phoneUrl (pyStr person_key), .post, 1⟩
        let trace := cached.2 ++ alt.2 ++ [preq]
        match oracle preq with
        | .ok resp =>
          if resp.status = 200 then
            ((extract_phones_from_data resp.body, jCost resp.body), trace)
          else (([], 0), trace)
        | .exn => (([], 0), trace)

/-- `get_emails_for_owner` (lines 534-607). -/
def get_emails_for_owner (oracle : Oracle) (person_key : JVal) :
    (List String × Int) × List Request :=
  if truthy person_key = false then (([], 0), [])
  else
    let cached := get_cached_email_data oracle person_key
    if cached.1.1 ≠ [] then cached
    else
      let alt := get_email_data_alternative_endpoints oracle person_key
      if alt.1.1 ≠ [] then (alt.1, cached.2 ++ alt.2)
      else
        let preq : Request := ⟨emailUrl (pyStr person_key), .post, 1⟩
        let trace := cached.2 ++ alt.2 ++ [preq]
        match oracle preq with
        | .ok resp =>
          if resp.status = 200 then
            ((extract_emails_from_data resp.body, jCost resp.body), trace)
          else (([], 0), trace)
        | .exn => (([], 0), trace)

/-! ## Owner resolution and property search (lines 146-329) -/

structure OwnerInfo where
  person_key : JVal
  name : JVal
  ownership_role : JVal
  person_type : JVal
  mail_address : JVal

/-- The `owner_info` dict built per result (lines 303-311);
`EntityName or Name or 'Unknown Owner'` is Python's truthiness-based `or`. -/
def mkOwnerInfo (o : JVal) : OwnerInfo :=
  ⟨jGetD o "PersonKey" .null,
   (let e := jGetD o "EntityName" .null
    if truthy e then e
    else
      let n := jGetD o "Name" .null
      if truthy n then n else .str "Unknown Owner"),
   (jGetD o "OwnershipRole" (.str "Unknown")),
   (jGetD o "PersonType" (.str "Unknown")),
   (jGetD o "MailAddress" (.arr []))⟩

/-- Build owner records from a `results` array; a non-dict element would make
`owner.get` raise, and the enclosing `except` returns `[]` — modelled by
`none`. -/
def mkOwnersFromResults : List JVal → Option (List OwnerInfo)
  | [] => some []
  | .obj fs :: rest => (mkOwnersFromResults rest).map (mkOwnerInfo (.obj fs) :: ·)
  | _ => none

/-- `get_owners_by_radar_id` (lines 272-329): a single GET with `Purchase=1`;
owners are parsed from a truthy `results` list.  A truthy non-list `results`
would raise while iterating and the `except` returns `[]`. -/
def get_owners_by_radar_id (oracle : Oracle) (radar_id : JVal) :
    List OwnerInfo × List Request :=
  let req : Request := ⟨personsUrl (pyStr radar_id), .get, 1⟩
  ((match oracle req with
    | .ok resp =>
      if resp.status = 200 then
        match jGet resp.body "results" with
        | some (.arr xs) =>
          if xs.isEmpty then [] else (mkOwnersFromResults xs).getD []
        | _ => []
      else []
    | .exn => []), [req])

/-- `extract_owner_info` (lines 248-270): skip results without a truthy
`RadarID`, otherwise look owners up and concatenate.  (A non-dict element in
`property_results` would raise out of this un-guarded function and crash the
Python run; here `jGetD` yields `null` and such an element is skipped — the
corner is unreachable from the modelled search step, which only returns
elements of a JSON `results` array.) -/
def extract_owner_info (oracle : Oracle) : List JVal → List OwnerInfo × List Request
  | [] => ([], [])
  | result :: rest =>
    let radar := jGetD result "RadarID" .null
    if truthy radar = false then extract_owner_info oracle rest
    else
      let cur := get_owners_by_radar_id oracle radar
      let next := extract_owner_info oracle rest
      (cur.1 ++ next.1, cur.2 ++ next.2)

/-- `search_property_with_propertyradar` (lines 146-246): parse the address
(no request at all on parse failure), then POST `/v1/properties` with
`Purchase` set from the paid-search flag, returning the `results` list when
present and truthy.  (A truthy non-list `results` value would crash the
Python run later; it is not modelled.) -/
def search_property_with_propertyradar (oracle : Oracle) (address : String)
    (use_paid_search : Bool) : List JVal × List Request :=
  match parse_address address with
  | none => ([], [])
  | some _ =>
    let req : Request := ⟨propertiesUrl, .post, if use_paid_search then 1 else 0⟩
    ((match oracle req with
      | .ok resp =>
        if resp.status = 200 then
          match jGet resp.body "results" with
          | some (.arr xs) => xs
          | _ => []
        else []
      | .exn => []), [req])

/-! ## The per-address pipeline (`main`, lines 786-1015) -/

structure OwnerDetail where
  name : JVal
  person_key : JVal
  phones : List String
  emails : List String
  phone_cost : Int
  email_cost : Int

/-- One report record; the aggregated `list(set(...))` phone and email
collections are modelled as the sets they denote. -/
structure ReportRecord where
  address : String
  owners : List OwnerDetail
  phones : Finset String
  emails : Finset String
  status : String

/-- The constant `USE_PAID_SEARCH = True` of `main` (line 795). -/
def USE_PAID_SEARCH : Bool := true

/-- The per-owner loop of `main` (lines 882-920): contact lookups run only
for owners with a truthy `person_key` (and only in paid mode); returns
(owner details, all phones, all emails) and the issued requests. -/
def processOwners (oracle : Oracle) (usePaid : Bool) :
    List OwnerInfo → (List OwnerDetail × List String × List String) × List Request
  | [] => (([], [], []), [])
  | o :: rest =>
    let cur : (List String × Int) × (List String × Int) × List Request :=
      if truthy o.person_key && usePaid then
        let p := get_phone_numbers_for_owner oracle o.person_key
        let e := get_emails_for_owner oracle o.person_key
        (p.1, e.1, p.2 ++ e.2)
      else (([], 0), ([], 0), [])
    let next := processOwners oracle usePaid rest
    ((⟨o.name, o.person_key, cur.1.1, cur.2.1.1, cur.1.2, cur.2.1.2⟩ :: next.1.1,
      cur.1.1 ++ next.1.2.1, cur.2.1.1 ++ next.1.2.2),
     cur.2.2 ++ next.2)

/-- One iteration of `main`'s address loop (lines 828-946): every branch
appends exactly one report record. -/
def processItem (oracle : Oracle) (item : MondayItem) : ReportRecord × List Request :=
  match extract_address item with
  | none => (⟨"No address", [], ∅, ∅, "No address"⟩, [])
  | some address =>
    let s := search_property_with_propertyradar oracle address USE_PAID_SEARCH
    if s.1.isEmpty then (⟨address, [], ∅, ∅, "No property data"⟩, s.2)
    else
      let o := extract_owner_info oracle s.1
      if o.1.isEmpty then (⟨address, [], ∅, ∅, "No owners found"⟩, s.2 ++ o.2)
      else
        let w := processOwners oracle USE_PAID_SEARCH o.1
        (⟨address, w.1.1, w.1.2.1.toFinset, w.1.2.2.toFinset,
          if w.1.2.1 ≠ [] ∨ w.1.2.2 ≠ [] then "Success" else "No contact info found"⟩,
         s.2 ++ o.2 ++ w.2)

/-- `main`'s loop over all board items. -/
def runPipeline (oracle : Oracle) : List MondayItem → List ReportRecord × List Request
  | [] => ([], [])
  | it :: rest =>
    let cur := processItem oracle it
    let next := runPipeline oracle rest
    (cur.1 :: next.1, cur.2 ++ next.2)

/-! ## Reference definitions and concrete test fixtures -/

/-- Is a JSON value a mapping or a sequence? -/
def isContainer : JVal → Bool
  | .arr _ => true
  | .obj _ => true
  | _ => false

/-- Does a board column carry text containing a street-type keyword? -/
def columnIndicatorHit (c : ColumnValue) : Bool :=
  match c.text with
  | some t => hasAddressIndicator t
  | none => false

/-- The canonical `(DDD) DDD-DDDD` form built from a digit list: first three
digits parenthesised, then the next three, a dash, and the rest. -/
def canonicalPhone (ds : List Char) : String :=
  String.mk ('(' :: ds.take 3 ++ [')', ' '] ++ (ds.drop 3).take 3 ++ '-' :: ds.drop 6)

/-- The phone normalization rule exactly as claim C7 words it: exactly 10
digits format canonically; 11 digits with a leading `1` drop the `1` and
format the same way; ≥ 10 digits but neither shape keep the original string;
fewer than 10 digits are discarded. -/
def phoneRuleSpec (p : String) : Option String :=
  let digits := p.toList.filter Char.isDigit
  if digits.length = 10 then some (canonicalPhone digits)
  else if digits.length = 11 ∧ digits.head? = some '1' then
    some (canonicalPhone (digits.drop 1))
  else if 10 ≤ digits.length then some p
  else none

/-- An environment answering every request with HTTP 200 and an empty object
(so every extraction step finds nothing). -/
def emptyOkOracle : Oracle := fun _ => .ok ⟨200, .obj []⟩

/-- An environment whose cached Phone/Email endpoints for person `P1` serve
already-purchased contact data. -/
def cacheHitOracle : Oracle := fun r =>
  if r.url = phoneUrl "P1" then
    .ok ⟨200, .obj [("results", .arr [.obj [("PhoneNumber", .str "555-123-4567")]])]⟩
  else if r.url = emailUrl "P1" then
    .ok ⟨200, .obj [("results", .arr [.obj [("EmailAddress", .str "bob@example.com")]])]⟩
  else .ok ⟨200, .obj []⟩

/-- An environment whose property search succeeds with an empty result list. -/
def noMatchOracle : Oracle := fun _ => .ok ⟨200, .obj [("results", .arr [])]⟩

/-- A board item whose name is itself a parseable address. -/
def itemBlvd : MondayItem := ⟨"400 LAS COLINAS BLVD E, IRVING, TX 75039", []⟩

/-! ## Sanity checks on concrete inputs -/

example : parse_address "400 LAS COLINAS BLVD E, IRVING, TX 75039" =
    some ⟨"400 LAS COLINAS BLVD E", "IRVING", "TX", "75039"⟩ := by decide

example : parse_address "1521 S Frontage Rd, Columbus, Ms 39701" =
    some ⟨"1521 S Frontage Rd", "Columbus", "MS", "39701"⟩ := by decide

example : parse_address "no commas here" = none := by decide

example : find_phones_raw (.obj [("HomePhone", .str "555-123-4567")]) =
    ["555-123-4567"] := by decide

example : find_phones_raw (.obj [("HomePhone", .str "(555) 123-4567")]) = [] := by decide

example : find_phone_numbers_in_response_comprehensive
    (.obj [("HomePhone", .str "555-123-4567")]) = ["(555) 123-4567"] := by decide

example : find_phones_raw (.obj [("notes", .str "call 555-123-4567 maybe")]) = [] := by
  decide

example : find_phones_raw (.obj [("Phone", .obj [("number", .str "555-123-4567")])]) =
    ["555-123-4567"] := by decide

/-! ## Claim C2 -/

/-- C2 counterexample: on `"A, Columbus Ms 39701, X"` (three comma-separated
segments whose segment 2 fails the state-zip pattern) `parse_address`
succeeds through the secondary combined pattern applied to segment 1, while
the claim's reference algorithm — which applies the secondary pattern only to
inputs with exactly 2 segments — fails.  So parse does not equal the claimed
reference algorithm. -/
theorem parse_address_fallthrough_counterexample :
    parse_address "A, Columbus Ms 39701, X" = some ⟨"A", "Columbus", "MS", "39701"⟩ ∧
    parseAddressClaimRef "A, Columbus Ms 39701, X" = none := by
  constructor <;> decide

/-- C2 (amended): `parse_address` equals the amended reference algorithm, in
which segments are trimmed before use and the secondary combined
city-state-zip pattern is applied to segment 1 of every input with ≥ 2
segments whenever the ≥3-segment primary pattern did not produce a result;
and every input with fewer than 2 comma-separated segments fails with no
partial result. -/
theorem parse_address_eq_amended_reference :
    (∀ raw, parse_address raw = parseAddressAmendedRef raw) ∧
    (∀ raw, (pySplitComma raw).length < 2 → parse_address raw = none) := by
  constructor
  · intro raw
    unfold parse_address parseAddressAmendedRef
    generalize pySplitComma raw = parts
    match parts with
    | [] => rfl
    | [a] => rfl
    | [a, b] => simp
    | a :: b :: c :: rest => simp [List.length_cons]
  · intro raw h
    unfold parse_address
    generalize hp : pySplitComma raw = parts at h
    match parts with
    | [] => rfl
    | [a] => rfl
    | a :: b :: rest => simp at h; omega

/-- C2 witness for `parse_address_eq_amended_reference`. -/
theorem parse_address_eq_amended_reference_witness :
    (pySplitComma "901 Main St Dallas TX").length < 2 ∧
    parse_address "901 Main St Dallas TX" = none ∧
    parse_address "A, Columbus Ms 39701, X" =
      parseAddressAmendedRef "A, Columbus Ms 39701, X" :=
  ⟨by decide, parse_address_eq_amended_reference.2 _ (by decide),
    parse_address_eq_amended_reference.1 _⟩

/-! ## Claim C5 -/

/-- C5 counterexample: the fuzzy extractor applied to
`{"HomePhone": "(555) 123-4567"}` yields no candidate at all — the digit
pattern `\d{3}[-.]?\d{3}[-.]?\d{4}` admits only `-` or `.` separators, so the
`"(555) "` prefix defeats it — contradicting the claim that this input yields
a `5551234567`-equivalent match. -/
theorem phone_extractor_paren_value_counterexample :
    find_phone_numbers_in_response_comprehensive
      (.obj [("HomePhone", .str "(555) 123-4567")]) = [] ∧
    find_phones_raw (.obj [("HomePhone", .str "(555) 123-4567")]) = [] := by
  constructor <;> decide

/-- C5 (amended): with a value actually matching the digit pattern, such as
`{"HomePhone": "555-123-4567"}`, the extractor yields the matched substring
(canonicalised to `(555) 123-4567`); the spec's own example value
`"(555) 123-4567"` yields no match; `{"notes": "call 555-123-4567 maybe"}`
yields no match because the key matches no indicator; and in general a string
value contributes a phone candidate only when its key contains an indicator
substring, never based on the value's content alone. -/
theorem phone_extractor_key_driven :
    find_phone_numbers_in_response_comprehensive
      (.obj [("HomePhone", .str "555-123-4567")]) = ["(555) 123-4567"] ∧
    find_phones_raw (.obj [("HomePhone", .str "555-123-4567")]) = ["555-123-4567"] ∧
    find_phone_numbers_in_response_comprehensive
      (.obj [("HomePhone", .str "(555) 123-4567")]) = [] ∧
    find_phones_raw (.obj [("notes", .str "call 555-123-4567 maybe")]) = [] ∧
    ∀ (k s : String) (rest : List (String × JVal)),
      keyHasIndicator phone_indicators k = false →
      find_phones_raw (.obj ((k, .str s) :: rest)) = find_phones_raw (.obj rest) := by
  refine ⟨by decide, by decide, by decide, by decide, ?_⟩
  intro k s rest h
  show find_phones_raw.goObj ((k, .str s) :: rest) = find_phones_raw.goObj rest
  rw [find_phones_raw.goObj]
  simp [h]

/-- C5 witness for `phone_extractor_key_driven`. -/
theorem phone_extractor_key_driven_witness :
    keyHasIndicator phone_indicators "notes" = false ∧
    find_phones_raw (.obj [("notes", .str "555-123-4567")]) =
      find_phones_raw (.obj []) :=
  ⟨by decide, phone_extractor_key_driven.2.2.2.2 "notes" "555-123-4567" [] (by decide)⟩

/-! ## Claim C6 -/

/-- C6 counterexample: a key named `Phone` whose value is
`{"number": "555-123-4567"}` is explored exactly once — the raw candidate
list is `["555-123-4567"]`, of length 1, not the length-2 list that a double
indicator-recursion would produce. -/
theorem nested_indicator_single_visit_counterexample :
    find_phones_raw (.obj [("Phone", .obj [("number", .str "555-123-4567")])]) =
      ["555-123-4567"] ∧
    (find_phones_raw
      (.obj [("Phone", .obj [("number", .str "555-123-4567")])])).length ≠ 2 := by
  constructor <;> decide

/-- C6 (amended): when a key matches an indicator and its value is itself a
mapping or sequence, the traversal still recurses into the value, and the
subtree is explored exactly once — the indicator branch performs the
recursion, and the type-based fallback, being an `elif`, does not run again.
The subtree's contribution is therefore exactly one copy of its own
extraction, for both the phone and the email walk. -/
theorem nested_indicator_recursion_once :
    ∀ (k : String) (v : JVal) (rest : List (String × JVal)),
      (keyHasIndicator phone_indicators k = true → isContainer v = true →
        find_phones_raw (.obj ((k, v) :: rest)) =
          find_phones_raw v ++ find_phones_raw (.obj rest)) ∧
      (keyHasIndicator email_indicators k = true → isContainer v = true →
        find_emails_raw (.obj ((k, v) :: rest)) =
          find_emails_raw v ++ find_emails_raw (.obj rest)) := by
  intro k v rest
  constructor
  · intro h hv
    cases v with
    | arr xs =>
      show find_phones_raw.goObj ((k, .arr xs) :: rest) = _
      rw [find_phones_raw.goObj]
      simp [h, find_phones_raw]
    | obj fs =>
      show find_phones_raw.goObj ((k, .obj fs) :: rest) = _
      rw [find_phones_raw.goObj]
      simp [h, find_phones_raw]
    | str s => simp [isContainer] at hv
    | num n => simp [isContainer] at hv
    | boolean b => simp [isContainer] at hv
    | null => simp [isContainer] at hv
  · intro h hv
    cases v with
    | arr xs =>
      show find_emails_raw.goObj ((k, .arr xs) :: rest) = _
      rw [find_emails_raw.goObj]
      simp [h, find_emails_raw]
    | obj fs =>
      show find_emails_raw.goObj ((k, .obj fs) :: rest) = _
      rw [find_emails_raw.goObj]
      simp [h, find_emails_raw]
    | str s => simp [isContainer] at hv
    | num n => simp [isContainer] at hv
    | boolean b => simp [isContainer] at hv
    | null => simp [isContainer] at hv

/-- C6 witness for `nested_indicator_recursion_once`. -/
theorem nested_indicator_recursion_once_witness :
    keyHasIndicator phone_indicators "Phone" = true ∧
    isContainer (JVal.obj [("number", JVal.str "5551234567")]) = true ∧
    find_phones_raw (.obj [("Phone", .obj [("number", .str "5551234567")])]) =
      find_phones_raw (.obj [("number", .str "5551234567")]) ++
        find_phones_raw (.obj []) :=
  ⟨by decide, by decide,
    (nested_indicator_recursion_once "Phone" (.obj [("number", .str "5551234567")])
      []).1 (by decide) (by decide)⟩

/-! ## Claim C7 -/

theorem startsWithOne_iff_head (l : List Char) :
    startsWithOne l = true ↔ l.head? = some '1' := by
  cases l with
  | nil => simp [startsWithOne]
  | cons c t => simp [startsWithOne]

/-- C7: the per-entry phone normalization rule agrees, on every raw string,
with the rule as the claim states it (10 digits → canonical form; 11 digits
led by `1` → drop the `1` and format; ≥ 10 digits but neither shape → the
original string unmodified; < 10 digits → discarded), and the normalizer
deduplicates via a set: `normalizePhones ["5551234567","15551234567",
"5551234567"]` is the single-element set containing `(555) 123-4567`. -/
theorem phone_normalization_rule :
    (∀ p, cleanPhone p = phoneRuleSpec p) ∧
    normalizePhones ["5551234567", "15551234567", "5551234567"] =
      {"(555) 123-4567"} := by
  constructor
  · intro p
    simp only [cleanPhone, phoneRuleSpec, canonicalPhone]
    set ds := p.toList.filter Char.isDigit with hds
    by_cases h10 : ds.length = 10
    · rw [if_pos h10, if_pos h10]
    · by_cases h11 : ds.length = 11 ∧ ds.head? = some '1'
      · have h11' : ds.length = 11 ∧ startsWithOne ds = true :=
          ⟨h11.1, (startsWithOne_iff_head ds).mpr h11.2⟩
        rw [if_neg h10, if_neg h10, if_pos h11', if_pos h11]
        have e4 : (ds.drop 1).drop 3 = ds.drop 4 := by
          rw [List.drop_drop]
        have e7 : (ds.drop 1).drop 6 = ds.drop 7 := by
          rw [List.drop_drop]
        rw [e4, e7]
      · have h11' : ¬ (ds.length = 11 ∧ startsWithOne ds = true) := fun hh =>
          h11 ⟨hh.1, (startsWithOne_iff_head ds).mp hh.2⟩
        rw [if_neg h10, if_neg h10, if_neg h11', if_neg h11]
  · decide

/-! ## Claim C8 -/

/-- C8 counterexample: the paid-purchase extraction path
(`extract_emails_from_data`) accepts `"a@."`, which contains `@` and `.` but
has length 3 — so the claimed accept-iff condition with `length > 5` does not
hold on every extraction path. -/
theorem purchase_email_no_length_check_counterexample :
    extract_emails_from_data (.obj [("Email", .str "a@.")]) = ["a@."] ∧
    normalizeEmailsPurchase ["a@."] = {"a@."} ∧
    ¬ 5 < ("a@." : String).length := by
  refine ⟨by decide, by decide, by decide⟩

/-- C8 (amended): email normalization trims each entry and deduplicates via a
set on both paths, but the accept condition differs: the cached/comprehensive
path accepts an entry iff it contains `@` and `.` and its trimmed length
exceeds 5, while the paid-purchase path accepts iff it contains `@` and `.`
with no length requirement.  The worked example yields the set containing
exactly `a@b.com` on both paths. -/
theorem email_normalization_rules :
    (∀ (l : List String) (x : String),
      x ∈ normalizeEmails l ↔ ∃ e ∈ l, pyStrip e = x ∧ emailOkFull x = true) ∧
    (∀ (l : List String) (x : String),
      x ∈ normalizeEmailsPurchase l ↔ ∃ e ∈ l, pyStrip e = x ∧ emailOkAt x = true) ∧
    normalizeEmails ["  a@b.com ", "a@b.com", "bad"] = {"a@b.com"} ∧
    normalizeEmailsPurchase ["  a@b.com ", "a@b.com", "bad"] = {"a@b.com"} ∧
    normalizeEmails ["a@."] = ∅ ∧
    normalizeEmailsPurchase ["a@."] = {"a@."} := by
  refine ⟨?_, ?_, by decide, by decide, by decide, by decide⟩
  · intro l x
    simp only [normalizeEmails, List.mem_toFinset, List.mem_filter, List.mem_map,
      List.mem_dedup]
    tauto
  · intro l x
    simp only [normalizeEmailsPurchase, List.mem_toFinset, List.mem_filter,
      List.mem_map]
    tauto

/-! ## Claim C9: helper lemmas -/

theorem mem_normalizePhones {l : List String} {x : String} :
    x ∈ normalizePhones l ↔ ∃ p ∈ l, cleanPhone p = some x := by
  simp [normalizePhones, List.mem_filterMap]

theorem mem_normalizeEmails {l : List String} {x : String} :
    x ∈ normalizeEmails l ↔ ∃ e ∈ l, pyStrip e = x ∧ emailOkFull x = true := by
  simp only [normalizeEmails, List.mem_toFinset, List.mem_filter, List.mem_map,
    List.mem_dedup]
  tauto

theorem filter_format_digits (t1 t2 t3 : List Char)
    (h1 : ∀ c ∈ t1, Char.isDigit c = true)
    (h2 : ∀ c ∈ t2, Char.isDigit c = true)
    (h3 : ∀ c ∈ t3, Char.isDigit c = true) :
    ('(' :: t1 ++ [')', ' '] ++ t2 ++ '-' :: t3).filter Char.isDigit =
      t1 ++ t2 ++ t3 := by
  have hp : Char.isDigit '(' = false := by decide
  have hq : Char.isDigit ')' = false := by decide
  have hsp : Char.isDigit ' ' = false := by decide
  have hdash : Char.isDigit '-' = false := by decide
  simp [List.filter_append, List.filter_cons, hp, hq, hsp, hdash,
    List.filter_eq_self.mpr h1, List.filter_eq_self.mpr h2,
    List.filter_eq_self.mpr h3]

theorem cleanPhone_digits10 {x : String} (ds : List Char)
    (hx : x.toList = '(' :: ds.take 3 ++ [')', ' '] ++ (ds.drop 3).take 3 ++
      '-' :: ds.drop 6)
    (hall : ∀ c ∈ ds, Char.isDigit c = true)
    (hlen : ds.length = 10) :
    cleanPhone x = some x := by
  have hdig : x.toList.filter Char.isDigit = ds := by
    rw [hx, filter_format_digits]
    · have h6 : (ds.drop 3).drop 3 = ds.drop 6 := by rw [List.drop_drop]
      calc ds.take 3 ++ (ds.drop 3).take 3 ++ ds.drop 6
          = ds.take 3 ++ ((ds.drop 3).take 3 ++ (ds.drop 3).drop 3) := by
            rw [← h6, List.append_assoc]
        _ = ds.take 3 ++ ds.drop 3 := by rw [List.take_append_drop]
        _ = ds := List.take_append_drop 3 ds
    · intro c hc; exact hall c (List.take_subset 3 ds hc)
    · intro c hc
      exact hall c (List.drop_subset 3 ds (List.take_subset 3 (ds.drop 3) hc))
    · intro c hc; exact hall c (List.drop_subset 6 ds hc)
  simp only [cleanPhone]
  rw [hdig, if_pos hlen, ← hx]
  rfl

/-- Every value produced by the phone cleanup rule is its own fixed point. -/
theorem cleanPhone_fixpoint {p x : String} (h : cleanPhone p = some x) :
    cleanPhone x = some x := by
  have hall : ∀ c ∈ p.toList.filter Char.isDigit, Char.isDigit c = true := by
    intro c hc; exact (List.mem_filter.mp hc).2
  simp only [cleanPhone] at h
  split_ifs at h with h10 h11 hge
  · -- exactly 10 digits: x is the canonical format of those digits
    have hx := (Option.some_inj.mp h).symm
    exact cleanPhone_digits10 (p.toList.filter Char.isDigit) (by rw [hx]; rfl) hall h10
  · -- 11 digits with a leading 1: x is the canonical format of the tail
    have hx := (Option.some_inj.mp h).symm
    refine cleanPhone_digits10 ((p.toList.filter Char.isDigit).drop 1) ?_
      (fun c hc => hall c (List.drop_subset 1 _ hc)) ?_
    · rw [hx]
      have e4 : ((p.toList.filter Char.isDigit).drop 1).drop 3 =
          (p.toList.filter Char.isDigit).drop 4 := by rw [List.drop_drop]
      have e7 : ((p.toList.filter Char.isDigit).drop 1).drop 6 =
          (p.toList.filter Char.isDigit).drop 7 := by rw [List.drop_drop]
      rw [e4, e7]
      rfl
    · rw [List.length_drop, h11.1]
  · -- ≥ 10 digits, neither shape: x is p itself
    have hx := Option.some_inj.mp h
    subst hx
    simp only [cleanPhone]
    rw [if_neg h10, if_neg h11, if_pos hge]

theorem dropWhile_dropWhile (p : Char → Bool) (l : List Char) :
    (l.dropWhile p).dropWhile p = l.dropWhile p := by
  induction l with
  | nil => rfl
  | cons c t ih =>
    by_cases hc : p c = true
    · simp [List.dropWhile_cons, hc, ih]
    · simp [List.dropWhile_cons, hc]

theorem dropWhile_head_not {p : Char → Bool} {l : List Char} {c : Char}
    {t : List Char} (h : l.dropWhile p = c :: t) : p c = false := by
  induction l with
  | nil => simp at h
  | cons a r ih =>
    by_cases ha : p a = true
    · rw [List.dropWhile_cons, if_pos ha] at h; exact ih h
    · rw [List.dropWhile_cons, if_neg ha] at h
      injection h with h1 h2
      subst h1
      simpa using ha

theorem stripChars_idem (l : List Char) : stripChars (stripChars l) = stripChars l := by
  have hsplit :
      ((l.dropWhile isPySpace).reverse.dropWhile isPySpace).reverse ++
        ((l.dropWhile isPySpace).reverse.takeWhile isPySpace).reverse =
        l.dropWhile isPySpace := by
    rw [← List.reverse_append, List.takeWhile_append_dropWhile, List.reverse_reverse]
  have h1 : ((l.dropWhile isPySpace).reverse.dropWhile isPySpace).reverse.dropWhile
      isPySpace = ((l.dropWhile isPySpace).reverse.dropWhile isPySpace).reverse := by
    cases hr : ((l.dropWhile isPySpace).reverse.dropWhile isPySpace).reverse with
    | nil => rfl
    | cons c u =>
      have hl : l.dropWhile isPySpace =
          c :: (u ++ ((l.dropWhile isPySpace).reverse.takeWhile isPySpace).reverse) := by
        conv_lhs => rw [← hsplit, hr]
        rfl
      have hc := dropWhile_head_not hl
      rw [List.dropWhile_cons, if_neg (by simp [hc])]
  simp only [stripChars]
  rw [h1, List.reverse_reverse, dropWhile_dropWhile]

theorem pyStrip_idem (s : String) : pyStrip (pyStrip s) = pyStrip s := by
  show String.mk (stripChars (stripChars s.toList)) = _
  rw [stripChars_idem]
  rfl

/-- Every value produced by either email cleanup rule is already stripped. -/
theorem mem_normalizeEmails_strip {l : List String} {x : String}
    (h : x ∈ normalizeEmails l) : pyStrip x = x := by
  obtain ⟨e, -, he, -⟩ := mem_normalizeEmails.mp h
  rw [← he, pyStrip_idem]

/-! ## Claim C9 -/

/-- C9: both normalizers are pure functions whose result depends only on the
set of input entries (order- and multiplicity-independence), re-applying
either to any enumeration of its own output is a no-op, and every output
value is a fixed point of normalization. -/
theorem normalization_order_free_idempotent :
    (∀ l₁ l₂ : List String, l₁.toFinset = l₂.toFinset →
      normalizePhones l₁ = normalizePhones l₂) ∧
    (∀ l₁ l₂ : List String, l₁.toFinset = l₂.toFinset →
      normalizeEmails l₁ = normalizeEmails l₂) ∧
    (∀ l l' : List String, l'.toFinset = normalizePhones l →
      normalizePhones l' = normalizePhones l) ∧
    (∀ l l' : List String, l'.toFinset = normalizeEmails l →
      normalizeEmails l' = normalizeEmails l) ∧
    (∀ (l : List String) (x : String), x ∈ normalizePhones l →
      normalizePhones [x] = {x}) ∧
    (∀ (l : List String) (x : String), x ∈ normalizeEmails l →
      normalizeEmails [x] = {x}) := by
  have hmem : ∀ (l₁ l₂ : List String), l₁.toFinset = l₂.toFinset →
      ∀ y : String, y ∈ l₁ ↔ y ∈ l₂ := by
    intro l₁ l₂ h y
    rw [← List.mem_toFinset, h, List.mem_toFinset]
  have phonesFix : ∀ (l : List String) (x : String), x ∈ normalizePhones l →
      cleanPhone x = some x := by
    intro l x hx
    obtain ⟨p, -, hp⟩ := mem_normalizePhones.mp hx
    exact cleanPhone_fixpoint hp
  have emailsFix : ∀ (l : List String) (x : String), x ∈ normalizeEmails l →
      pyStrip x = x ∧ emailOkFull x = true := by
    intro l x hx
    refine ⟨mem_normalizeEmails_strip hx, ?_⟩
    obtain ⟨e, -, -, hok⟩ := mem_normalizeEmails.mp hx
    exact hok
  refine ⟨?_, ?_, ?_, ?_, ?_, ?_⟩
  · intro l₁ l₂ h
    ext x
    simp only [mem_normalizePhones]
    constructor
    · rintro ⟨p, hp, hc⟩; exact ⟨p, (hmem l₁ l₂ h p).mp hp, hc⟩
    · rintro ⟨p, hp, hc⟩; exact ⟨p, (hmem l₁ l₂ h p).mpr hp, hc⟩
  · intro l₁ l₂ h
    ext x
    simp only [mem_normalizeEmails]
    constructor
    · rintro ⟨e, he, hc⟩; exact ⟨e, (hmem l₁ l₂ h e).mp he, hc⟩
    · rintro ⟨e, he, hc⟩; exact ⟨e, (hmem l₁ l₂ h e).mpr he, hc⟩
  · intro l l' h
    ext x
    simp only [mem_normalizePhones]
    constructor
    · rintro ⟨p, hp, hc⟩
      have hpo : p ∈ normalizePhones l := by
        rw [← h, List.mem_toFinset] at *; exact hp
      have := phonesFix l p hpo
      rw [this] at hc
      obtain rfl := Option.some_inj.mp hc
      exact mem_normalizePhones.mp hpo
    · intro hx
      have hxo : x ∈ normalizePhones l := mem_normalizePhones.mpr hx
      refine ⟨x, ?_, phonesFix l x hxo⟩
      rw [← List.mem_toFinset, h]; exact hxo
  · intro l l' h
    ext x
    simp only [mem_normalizeEmails]
    constructor
    · rintro ⟨e, he, hst, hok⟩
      have heo : e ∈ normalizeEmails l := by
        rw [← h, List.mem_toFinset] at *; exact he
      have := (emailsFix l e heo).1
      rw [this] at hst
      subst hst
      exact mem_normalizeEmails.mp heo
    · intro hx
      have hxo : x ∈ normalizeEmails l := mem_normalizeEmails.mpr hx
      refine ⟨x, ?_, (emailsFix l x hxo).1, (emailsFix l x hxo).2⟩
      rw [← List.mem_toFinset, h]; exact hxo
  · intro l x hx
    have hfix := phonesFix l x hx
    ext y
    simp only [mem_normalizePhones, List.mem_singleton, Finset.mem_singleton]
    constructor
    · rintro ⟨p, rfl, hc⟩
      rw [hfix] at hc
      exact (Option.some_inj.mp hc).symm
    · rintro rfl
      exact ⟨y, rfl, hfix⟩
  · intro l x hx
    have hfix := emailsFix l x hx
    ext y
    simp only [mem_normalizeEmails, List.mem_singleton, Finset.mem_singleton]
    constructor
    · rintro ⟨e, rfl, hst, hok⟩
      rw [hfix.1] at hst
      exact hst.symm
    · rintro rfl
      exact ⟨y, rfl, hfix.1, hfix.2⟩

/-- C9 witness for `normalization_order_free_idempotent`. -/
theorem normalization_order_free_idempotent_witness :
    (["15551234567", "5551234567"] : List String).toFinset =
      (["5551234567", "15551234567", "5551234567"] : List String).toFinset ∧
    normalizePhones ["15551234567", "5551234567"] =
      normalizePhones ["5551234567", "15551234567", "5551234567"] ∧
    (["a@b.com"] : List String).toFinset = normalizeEmails ["  a@b.com "] ∧
    normalizeEmails ["a@b.com"] = normalizeEmails ["  a@b.com "] ∧
    (["(555) 123-4567"] : List String).toFinset = normalizePhones ["5551234567"] ∧
    normalizePhones ["(555) 123-4567"] = normalizePhones ["5551234567"] ∧
    "(555) 123-4567" ∈ normalizePhones ["5551234567"] ∧
    normalizePhones ["(555) 123-4567"] = {"(555) 123-4567"} :=
  ⟨by decide,
    normalization_order_free_idempotent.1 _ _ (by decide),
    by decide,
    normalization_order_free_idempotent.2.2.2.1 _ _ (by decide),
    by decide,
    normalization_order_free_idempotent.2.2.1 _ _ (by decide),
    by decide,
    normalization_order_free_idempotent.2.2.2.2.1 ["5551234567"] "(555) 123-4567"
      (by decide)⟩

/-! ## Claim C10 -/

theorem firstIndicatorColumn_none {cols : List ColumnValue}
    (h : ∀ c ∈ cols, columnIndicatorHit c = false) :
    firstIndicatorColumn cols = none := by
  induction cols with
  | nil => rfl
  | cons c rest ih =>
    have hc := h c (List.mem_cons_self c rest)
    have hrest := ih fun d hd => h d (List.mem_cons_of_mem c hd)
    cases ht : c.text with
    | none => simp only [firstIndicatorColumn, ht]; exact hrest
    | some t =>
      have hhit : hasAddressIndicator t = false := by
        simp only [columnIndicatorHit, ht] at hc; exact hc
      simp only [firstIndicatorColumn, ht]
      by_cases he : t = ""
      · simp [he, hrest]
      · simp [he, hhit, hrest]

/-- C10: `extract_address` returns no address exactly for the literal name
`"New address"`; and when neither the item name nor any column text contains
a street-type keyword, the raw item name is still returned as the address
candidate whenever it is non-empty — only an empty name yields no address. -/
theorem extract_address_name_fallback :
    ∀ item : MondayItem,
      (item.name = "New address" → extract_address item = none) ∧
      (item.name ≠ "New address" → hasAddressIndicator item.name = false →
        (∀ c ∈ item.column_values, columnIndicatorHit c = false) →
        extract_address item =
          if item.name = "" then none else some item.name) := by
  intro item
  constructor
  · intro h
    rw [extract_address, if_pos h]
  · intro hn hi hcols
    rw [extract_address, if_neg hn, if_neg (by simp [hi]),
      firstIndicatorColumn_none hcols]

/-- C10 witness for `extract_address_name_fallback`. -/
theorem extract_address_name_fallback_witness :
    (("ZZZ 123" : String) = "New address" →
      extract_address ⟨"ZZZ 123", [⟨"c1", some "hello"⟩, ⟨"c2", none⟩]⟩ = none) ∧
    (("ZZZ 123" : String) ≠ "New address" ∧
      hasAddressIndicator "ZZZ 123" = false ∧
      (∀ c ∈ [(⟨"c1", some "hello"⟩ : ColumnValue), ⟨"c2", none⟩],
        columnIndicatorHit c = false) ∧
      extract_address ⟨"ZZZ 123", [⟨"c1", some "hello"⟩, ⟨"c2", none⟩]⟩ =
        some "ZZZ 123") ∧
    extract_address ⟨"New address", [⟨"c1", some "400 LAS COLINAS BLVD E"⟩]⟩ =
      none := by
  refine ⟨?_, ⟨by decide, by decide, by decide, ?_⟩, ?_⟩
  · intro h
    exact (extract_address_name_fallback
      ⟨"ZZZ 123", [⟨"c1", some "hello"⟩, ⟨"c2", none⟩]⟩).1 h
  · have h := (extract_address_name_fallback
      ⟨"ZZZ 123", [⟨"c1", some "hello"⟩, ⟨"c2", none⟩]⟩).2
      (by decide) (by decide) (by decide)
    simpa using h
  · exact (extract_address_name_fallback
      ⟨"New address", [⟨"c1", some "400 LAS COLINAS BLVD E"⟩]⟩).1 rfl

/-! ## Claim C4: helper lemmas -/

theorem tryAltRequests_cost_zero (oracle : Oracle) (ext : JVal → List String) :
    ∀ reqs, (tryAltRequests oracle ext reqs).1.2 = 0 := by
  intro reqs
  induction reqs with
  | nil => rfl
  | cons r rest ih =>
    simp only [tryAltRequests]
    split
    · split_ifs with hs hne
      · rfl
      · exact ih
      · exact ih
    · exact ih

theorem tryAltRequests_trace_mem (oracle : Oracle) (ext : JVal → List String) :
    ∀ reqs, ∀ r ∈ (tryAltRequests oracle ext reqs).2, r ∈ reqs := by
  intro reqs
  induction reqs with
  | nil => intro r hr; simp [tryAltRequests] at hr
  | cons q rest ih =>
    intro r hr
    simp only [tryAltRequests] at hr
    split at hr
    · split_ifs at hr with hs hne
      · rw [List.mem_singleton] at hr
        subst hr
        exact List.mem_cons_self _ _
      · rw [List.mem_cons] at hr
        rcases hr with rfl | hr
        · exact List.mem_cons_self _ _
        · exact List.mem_cons_of_mem _ (ih r hr)
      · rw [List.mem_cons] at hr
        rcases hr with rfl | hr
        · exact List.mem_cons_self _ _
        · exact List.mem_cons_of_mem _ (ih r hr)
    · rw [List.mem_cons] at hr
      rcases hr with rfl | hr
      · exact List.mem_cons_self _ _
      · exact List.mem_cons_of_mem _ (ih r hr)

theorem tryAltRequests_first_hit (oracle : Oracle) (ext : JVal → List String)
    (r : Request) (rest : List Request) (resp : HttpResponse)
    (h : oracle r = .ok resp) (hs : resp.status = 200) (hne : ext resp.body ≠ []) :
    tryAltRequests oracle ext (r :: rest) = ((ext resp.body, 0), [r]) := by
  simp only [tryAltRequests, h]
  rw [if_pos hs, if_pos hne]

theorem altEndpointRequests_props (pk : String) :
    ∀ r ∈ altEndpointRequests pk,
      r.method = .get ∧ (r.purchase = 0 ∨ r.purchase = 1) ∧
      r.url ∈ [personDetailsUrl pk, contactUrl pk, contactsUrl pk] := by
  intro r hr
  simp only [altEndpointRequests, List.mem_cons, List.not_mem_nil, or_false] at hr
  rcases hr with rfl | rfl | rfl | rfl | rfl | rfl <;> simp

/-! ## Claim C4 -/

/-- C4 counterexample: when every alternative endpoint answers HTTP 200 with
an empty payload, the alternative-endpoints step issues three requests with
`Purchase=1` (one per endpoint) for phones, and likewise for emails — so not
every request issued during this step is a no-charge (`Purchase=0`)
request. -/
theorem alt_endpoints_purchase_probe_counterexample :
    ((get_phone_data_alternative_endpoints emptyOkOracle (.str "P1")).2.filter
      (fun r => r.purchase == 1)).length = 3 ∧
    ((get_email_data_alternative_endpoints emptyOkOracle (.str "P1")).2.filter
      (fun r => r.purchase == 1)).length = 3 := by
  constructor <;> decide

/-- C4 (amended): every request issued during the alternative-endpoints step
is a read-only GET against one of the three fixed endpoints (person details,
`/contact`, `/contacts`), each probed with both `Purchase=0` and `Purchase=1`
query modes; the step's reported cost is always 0, and the first HTTP-200
response with a non-empty extraction is accepted immediately, at zero cost,
with no further requests. -/
theorem alt_endpoints_read_only_zero_cost :
    ∀ (oracle : Oracle) (pk : JVal),
      (∀ r ∈ (get_phone_data_alternative_endpoints oracle pk).2,
        r.method = .get ∧ (r.purchase = 0 ∨ r.purchase = 1) ∧
        r.url ∈ [personDetailsUrl (pyStr pk), contactUrl (pyStr pk),
          contactsUrl (pyStr pk)]) ∧
      (get_phone_data_alternative_endpoints oracle pk).1.2 = 0 ∧
      (∀ r ∈ (get_email_data_alternative_endpoints oracle pk).2,
        r.method = .get ∧ (r.purchase = 0 ∨ r.purchase = 1) ∧
        r.url ∈ [personDetailsUrl (pyStr pk), contactUrl (pyStr pk),
          contactsUrl (pyStr pk)]) ∧
      (get_email_data_alternative_endpoints oracle pk).1.2 = 0 ∧
      ((altEndpointRequests (pyStr pk)).map Request.purchase = [0, 1, 0, 1, 0, 1]) ∧
      (∀ (r : Request) (rest : List Request) (resp : HttpResponse),
        oracle r = .ok resp → resp.status = 200 →
        find_phone_numbers_in_response_comprehensive resp.body ≠ [] →
        tryAltRequests oracle find_phone_numbers_in_response_comprehensive
          (r :: rest) =
          ((find_phone_numbers_in_response_comprehensive resp.body, 0), [r])) := by
  intro oracle pk
  refine ⟨?_, tryAltRequests_cost_zero oracle _ _, ?_,
    tryAltRequests_cost_zero oracle _ _, rfl, ?_⟩
  · intro r hr
    exact altEndpointRequests_props (pyStr pk) r
      (tryAltRequests_trace_mem oracle _ _ r hr)
  · intro r hr
    exact altEndpointRequests_props (pyStr pk) r
      (tryAltRequests_trace_mem oracle _ _ r hr)
  · intro r rest resp h hs hne
    exact tryAltRequests_first_hit oracle _ r rest resp h hs hne

/-- C4 witness for `alt_endpoints_read_only_zero_cost`. -/
theorem alt_endpoints_read_only_zero_cost_witness :
    (⟨personDetailsUrl "P1", .get, 1⟩ : Request) ∈
      (get_phone_data_alternative_endpoints emptyOkOracle (.str "P1")).2 ∧
    ((⟨personDetailsUrl "P1", .get, 1⟩ : Request).method = .get ∧
      ((⟨personDetailsUrl "P1", .get, 1⟩ : Request).purchase = 0 ∨
        (⟨personDetailsUrl "P1", .get, 1⟩ : Request).purchase = 1) ∧
      (⟨personDetailsUrl "P1", .get, 1⟩ : Request).url ∈
        [personDetailsUrl "P1", contactUrl "P1", contactsUrl "P1"]) ∧
    (get_phone_data_alternative_endpoints emptyOkOracle (.str "P1")).1.2 = 0 :=
  ⟨by decide,
    (alt_endpoints_read_only_zero_cost emptyOkOracle (.str "P1")).1 _ (by decide),
    (alt_endpoints_read_only_zero_cost emptyOkOracle (.str "P1")).2.1⟩

/-! ## Claim C1: helper lemmas -/

theorem get_phone_numbers_for_owner_trace_cons (oracle : Oracle) (pk : JVal)
    (hpk : truthy pk = true) :
    ∃ tail, (get_phone_numbers_for_owner oracle pk).2 =
      ⟨phoneUrl (pyStr pk), .post, 0⟩ :: tail := by
  simp only [get_phone_numbers_for_owner]
  rw [if_neg (show ¬ truthy pk = false by simp [hpk])]
  by_cases hc : (get_cached_phone_data oracle pk).1.1 ≠ []
  · rw [if_pos hc]
    exact ⟨[], rfl⟩
  · rw [if_neg hc]
    by_cases ha : (get_phone_data_alternative_endpoints oracle pk).1.1 ≠ []
    · rw [if_pos ha]
      exact ⟨(get_phone_data_alternative_endpoints oracle pk).2, rfl⟩
    · rw [if_neg ha]
      refine ⟨(get_phone_data_alternative_endpoints oracle pk).2 ++
        [⟨phoneUrl (pyStr pk), .post, 1⟩], ?_⟩
      split
      · split_ifs <;> rfl
      · rfl

theorem get_emails_for_owner_trace_cons (oracle : Oracle) (pk : JVal)
    (hpk : truthy pk = true) :
    ∃ tail, (get_emails_for_owner oracle pk).2 =
      ⟨emailUrl (pyStr pk), .post, 0⟩ :: tail := by
  simp only [get_emails_for_owner]
  rw [if_neg (show ¬ truthy pk = false by simp [hpk])]
  by_cases hc : (get_cached_email_data oracle pk).1.1 ≠ []
  · rw [if_pos hc]
    exact ⟨[], rfl⟩
  · rw [if_neg hc]
    by_cases ha : (get_email_data_alternative_endpoints oracle pk).1.1 ≠ []
    · rw [if_pos ha]
      exact ⟨(get_email_data_alternative_endpoints oracle pk).2, rfl⟩
    · rw [if_neg ha]
      refine ⟨(get_email_data_alternative_endpoints oracle pk).2 ++
        [⟨emailUrl (pyStr pk), .post, 1⟩], ?_⟩
      split
      · split_ifs <;> rfl
      · rfl

theorem get_phone_numbers_for_owner_cache_hit (oracle : Oracle) (pk : JVal)
    (hpk : truthy pk = true)
    (hc : (get_cached_phone_data oracle pk).1.1 ≠ []) :
    get_phone_numbers_for_owner oracle pk = get_cached_phone_data oracle pk := by
  simp only [get_phone_numbers_for_owner]
  rw [if_neg (show ¬ truthy pk = false by simp [hpk]), if_pos hc]

theorem get_emails_for_owner_cache_hit (oracle : Oracle) (pk : JVal)
    (hpk : truthy pk = true)
    (hc : (get_cached_email_data oracle pk).1.1 ≠ []) :
    get_emails_for_owner oracle pk = get_cached_email_data oracle pk := by
  simp only [get_emails_for_owner]
  rw [if_neg (show ¬ truthy pk = false by simp [hpk]), if_pos hc]

/-! ## Claim C1 -/

/-- C1: for every owner with a contact-lookup identifier, both the phone and
the email lookup sub-protocols issue, as their very first boundary request, a
no-charge (`Purchase=0`) POST to the cached person Phone/Email endpoint — a
paid purchase request is never the first attempt — and whenever the cached
step returns a non-empty contact list, every request issued by that owner's
lookup in the run is a `Purchase=0` request (zero purchase-mode requests). -/
theorem contact_lookup_cache_first (oracle : Oracle) (pk : JVal)
    (hpk : truthy pk = true) :
    (get_phone_numbers_for_owner oracle pk).2.head? =
      some ⟨phoneUrl (pyStr pk), .post, 0⟩ ∧
    (get_emails_for_owner oracle pk).2.head? =
      some ⟨emailUrl (pyStr pk), .post, 0⟩ ∧
    ((get_cached_phone_data oracle pk).1.1 ≠ [] →
      ∀ r ∈ (get_phone_numbers_for_owner oracle pk).2, r.purchase = 0) ∧
    ((get_cached_email_data oracle pk).1.1 ≠ [] →
      ∀ r ∈ (get_emails_for_owner oracle pk).2, r.purchase = 0) := by
  obtain ⟨tp, htp⟩ := get_phone_numbers_for_owner_trace_cons oracle pk hpk
  obtain ⟨te, hte⟩ := get_emails_for_owner_trace_cons oracle pk hpk
  refine ⟨by rw [htp]; rfl, by rw [hte]; rfl, ?_, ?_⟩
  · intro hc r hr
    rw [get_phone_numbers_for_owner_cache_hit oracle pk hpk hc] at hr
    have hr2 : r ∈ [(⟨phoneUrl (pyStr pk), .post, 0⟩ : Request)] := hr
    rw [List.mem_singleton] at hr2
    subst hr2
    rfl
  · intro hc r hr
    rw [get_emails_for_owner_cache_hit oracle pk hpk hc] at hr
    have hr2 : r ∈ [(⟨emailUrl (pyStr pk), .post, 0⟩ : Request)] := hr
    rw [List.mem_singleton] at hr2
    subst hr2
    rfl

/-- C1 witness for `contact_lookup_cache_first`. -/
theorem contact_lookup_cache_first_witness :
    truthy (.str "P1") = true ∧
    ((get_phone_numbers_for_owner cacheHitOracle (.str "P1")).2.head? =
      some ⟨phoneUrl (pyStr (.str "P1")), .post, 0⟩ ∧
    (get_emails_for_owner cacheHitOracle (.str "P1")).2.head? =
      some ⟨emailUrl (pyStr (.str "P1")), .post, 0⟩ ∧
    ((get_cached_phone_data cacheHitOracle (.str "P1")).1.1 ≠ [] →
      ∀ r ∈ (get_phone_numbers_for_owner cacheHitOracle (.str "P1")).2,
        r.purchase = 0) ∧
    ((get_cached_email_data cacheHitOracle (.str "P1")).1.1 ≠ [] →
      ∀ r ∈ (get_emails_for_owner cacheHitOracle (.str "P1")).2,
        r.purchase = 0)) ∧
    (get_cached_phone_data cacheHitOracle (.str "P1")).1.1 ≠ [] ∧
    (get_cached_email_data cacheHitOracle (.str "P1")).1.1 ≠ [] :=
  ⟨by decide, contact_lookup_cache_first cacheHitOracle (.str "P1") (by decide),
    by decide, by decide⟩

/-! ## Claim C3 -/

/-- C3 counterexample: an address whose property search succeeds with an
empty result list yields a report record with status `"No property data"`
(the literal used by `main` in `final_working_script.py`; the class-based
pipeline uses `"Property not found"`), not the claimed string
`"property not found"`. -/
theorem property_not_found_status_counterexample :
    (processItem noMatchOracle itemBlvd).1 =
      ⟨"400 LAS COLINAS BLVD E, IRVING, TX 75039", [], ∅, ∅, "No property data"⟩ ∧
    "No property data" ≠ "property not found" :=
  ⟨rfl, by decide⟩

/-- C3 (amended): for every input address whose property search returns no
match, the pipeline appends exactly one report record — with status
`"No property data"` and empty owners, phones and emails — and issues zero
boundary calls beyond the property-search attempt for that address: its whole
request trace is the search step's own trace, every element of which is a
POST to the properties endpoint.  Each board item contributes exactly one
record to the run's report list. -/
theorem property_no_match_record (oracle : Oracle) (item : MondayItem)
    (address : String) (ha : extract_address item = some address)
    (hs : (search_property_with_propertyradar oracle address USE_PAID_SEARCH).1 = []) :
    processItem oracle item =
      (⟨address, [], ∅, ∅, "No property data"⟩,
        (search_property_with_propertyradar oracle address USE_PAID_SEARCH).2) ∧
    (∀ r ∈ (search_property_with_propertyradar oracle address USE_PAID_SEARCH).2,
      r.url = propertiesUrl ∧ r.method = .post) ∧
    (∀ items : List MondayItem,
      (runPipeline oracle items).1.length = items.length) := by
  refine ⟨?_, ?_, ?_⟩
  · simp only [processItem, ha, hs]
    rfl
  · intro r hr
    simp only [search_property_with_propertyradar] at hr
    cases hp : parse_address address with
    | none => rw [hp] at hr; simp at hr
    | some comps =>
      rw [hp] at hr
      simp only [List.mem_singleton] at hr
      subst hr
      exact ⟨rfl, rfl⟩
  · intro items
    induction items with
    | nil => rfl
    | cons it rest ih => simp [runPipeline, ih]

/-- C3 witness for `property_no_match_record`. -/
theorem property_no_match_record_witness :
    extract_address itemBlvd = some "400 LAS COLINAS BLVD E, IRVING, TX 75039" ∧
    (search_property_with_propertyradar noMatchOracle
      "400 LAS COLINAS BLVD E, IRVING, TX 75039" USE_PAID_SEARCH).1 = [] ∧
    processItem noMatchOracle itemBlvd =
      (⟨"400 LAS COLINAS BLVD E, IRVING, TX 75039", [], ∅, ∅, "No property data"⟩,
        (search_property_with_propertyradar noMatchOracle
          "400 LAS COLINAS BLVD E, IRVING, TX 75039" USE_PAID_SEARCH).2) :=
  ⟨rfl, rfl,
    (property_no_match_record noMatchOracle itemBlvd
      "400 LAS COLINAS BLVD E, IRVING, TX 75039" rfl rfl).1⟩

end PRadar
